import Mathlib

/-!
Shallow embedding of the `rust-listener` event indexer (universal-evm-listener).

The embedding follows the Rust sources file by file:
* string / hex helpers model the `str` operations used by the code
  (`strip_prefix("0x")`, `trim_start_matches("0x")`, `to_lowercase`,
  `from_str_radix(_, 16)`, `hex::decode`, `hex::encode`);
  strings are modelled at character level (the payloads handled by the
  listener are ASCII hex strings);
* `fusion.rs` decoders (`decode_src_escrow_created`, `decode_dst_escrow_created`,
  `decode_escrow_withdrawal`, `decode_order_filled`, `compute_hashlock_from_secret`);
  `keccak256` is kept abstract as a byte-list function parameter;
* `db.rs` tables as lists of rows, with the SQL `INSERT OR IGNORE` / `UPDATE`
  statements translated predicate-for-predicate;
* `poller.rs` (`initialize_checkpoint`, `poll_once`, the fusion event
  processors) as state-passing functions over an RPC environment oracle;
* `rpc.rs` retry loop as a function over a stream of attempt outcomes.
-/

namespace EvmListener

/-- Rust `char::to_lowercase` restricted to one scalar value; on the ASCII
strings handled by the listener it agrees with `Char.toLower`. -/
def charLower (c : Char) : Char :=
  Char.toLower c

/-- Rust `str::to_lowercase` (ASCII fragment). -/
def strLower (s : String) : String :=
  ⟨s.data.map charLower⟩

/-- Rust `s.strip_prefix("0x")` on a character list: remove one leading `0x`
when present. -/
def strip0xList : List Char → List Char
  | '0' :: 'x' :: rest => rest
  | l => l

/-- Rust `s.strip_prefix("0x").unwrap_or(s)`. -/
def strip0x (s : String) : String :=
  ⟨strip0xList s.data⟩

/-- Rust `str::trim_start_matches("0x")` on a character list: remove every
leading repetition of `0x`. -/
def trim0xList : List Char → List Char
  | '0' :: 'x' :: rest => trim0xList rest
  | l => l

/-- Rust `s.trim_start_matches("0x")`. -/
def trim0x (s : String) : String :=
  ⟨trim0xList s.data⟩

/-- Value of one hexadecimal digit, `none` on a non-digit. -/
def hexDigitVal (c : Char) : Option Nat :=
  if '0' ≤ c ∧ c ≤ '9' then some (c.toNat - 48)
  else if 'a' ≤ c ∧ c ≤ 'f' then some (c.toNat - 87)
  else if 'A' ≤ c ∧ c ≤ 'F' then some (c.toNat - 55)
  else none

/-- Accumulating base-16 parse of a character list, `none` on a non-digit. -/
def hexAcc : List Char → Nat → Option Nat
  | [], acc => some acc
  | c :: rest, acc =>
    match hexDigitVal c with
    | none => none
    | some d => hexAcc rest (acc * 16 + d)

/-- Rust `uN::from_str_radix(s, 16)` followed by `.unwrap_or(0)`: an empty
string, a non-digit, or overflow past `2^bits` yields the error branch. -/
def parseHexOr0 (bits : Nat) (s : String) : Nat :=
  match s.data with
  | [] => 0
  | l =>
    match hexAcc l 0 with
    | none => 0
    | some v => if v < 2 ^ bits then v else 0

/-- Rust `hex::decode`: pairs of hex digits to bytes; odd length or a
non-digit fails. -/
def hexDecodeBytes : List Char → Option (List Nat)
  | [] => some []
  | [_] => none
  | c1 :: c2 :: rest =>
    match hexDigitVal c1, hexDigitVal c2 with
    | some d1, some d2 =>
      match hexDecodeBytes rest with
      | some bs => some ((d1 * 16 + d2) :: bs)
      | none => none
    | _, _ => none

/-- Lowercase hex digit for a value below 16. -/
def hexChar (n : Nat) : Char :=
  match n with
  | 0 => '0' | 1 => '1' | 2 => '2' | 3 => '3' | 4 => '4'
  | 5 => '5' | 6 => '6' | 7 => '7' | 8 => '8' | 9 => '9'
  | 10 => 'a' | 11 => 'b' | 12 => 'c' | 13 => 'd' | 14 => 'e'
  | _ => 'f'

/-- Rust `hex::encode`: two lowercase digits per byte. -/
def hexEncodeBytes : List Nat → List Char
  | [] => []
  | b :: rest => hexChar (b / 16 % 16) :: hexChar (b % 16) :: hexEncodeBytes rest

/-- Characters of `s` from byte `a` (inclusive) to `b` (exclusive), the
`&s[a..b]` slice on an ASCII string. -/
def sliceChars (l : List Char) (a b : Nat) : List Char :=
  (l.drop a).take (b - a)

/-! Event topic constants from `types.rs`. -/

def TRANSFER_TOPIC : String :=
  "0xddf252ad1be2c89b69c2b068fc378daa952ba7f163c4a11628f55a4df523b3ef"

def SRC_ESCROW_CREATED_TOPIC : String :=
  "0x0e534c62f0afd2fa0f0fa71198e8aa2d549f24daf2bb47de0d5486c7ce9288ca"

def DST_ESCROW_CREATED_TOPIC : String :=
  "0x4d81cba2e6bb297be9304a3fd015ef78782b99f914a881ee9bd2f93291ee6eab"

def ESCROW_WITHDRAWAL_TOPIC : String :=
  "0xe346f5c97a360db5188bfa5d3ec5f0583abde420c6ba4d08b6cfe61addc17105"

def ESCROW_CANCELLED_TOPIC : String :=
  "0x6e3be9294e58d10b9c8053cfd5e09871b67e442fe394d6b0870d336b9df984a9"

def ORDER_FILLED_TOPIC : String :=
  "0xfec331350fce78ba658e082a71da20ac9f8d798a99b3c79681c8440cbfe77e07"

def ORDER_CANCELLED_TOPIC : String :=
  "0xc9f7df58a71d1f49f7d4e6d19a4b5d8f5c6c7b8a9d0e1f2a3b4c5d6e7f8a9b0c"

/-- Log entry from `eth_getLogs` (`types.rs` `Log`). -/
structure Log where
  address : String
  topics : List String
  data : String
  blockNumber : String
  transactionHash : String
  logIndex : String
deriving DecidableEq, Repr

/-- Rust `Log::block_number_u64`: hex parse of the field with `unwrap_or(0)`,
after `trim_start_matches("0x")`. -/
def Log.blockNumberU64 (log : Log) : Nat :=
  parseHexOr0 64 (trim0x log.blockNumber)

/-- Rust `Log::log_index_u32`. -/
def Log.logIndexU32 (log : Log) : Nat :=
  parseHexOr0 32 (trim0x log.logIndex)

/-- Transfer event data (`types.rs` `Transfer`). -/
structure Transfer where
  chainId : Nat
  txHash : String
  logIndex : Nat
  token : String
  fromAddr : String
  toAddr : String
  value : String
  blockNumber : Nat
  blockTimestamp : Nat
deriving DecidableEq, Repr

/-- Data decoded from a `SrcEscrowCreated` event (`types.rs`). -/
structure SrcEscrowCreatedData where
  orderHash : String
  hashlock : String
  srcMaker : String
  srcTaker : String
  srcToken : String
  srcAmount : String
  srcSafetyDeposit : String
  srcTimelocks : String
  dstMaker : String
  dstAmount : String
  dstToken : String
  dstSafetyDeposit : String
  dstChainId : Nat
deriving DecidableEq, Repr

/-- Data decoded from a `DstEscrowCreated` event (`types.rs`). -/
structure DstEscrowCreatedData where
  orderHash : String
  hashlock : String
  dstMaker : String
  dstTaker : String
  dstToken : String
  dstAmount : String
  dstSafetyDeposit : String
  dstTimelocks : String
deriving DecidableEq, Repr

/-- Fusion+ swap record (`types.rs` `FusionPlusSwap`). -/
structure FusionPlusSwap where
  orderHash : String
  hashlock : String
  secret : Option String
  srcChainId : Nat
  srcTxHash : String
  srcBlockNumber : Nat
  srcBlockTimestamp : Nat
  srcLogIndex : Nat
  srcEscrowAddress : Option String
  srcMaker : String
  srcTaker : String
  srcToken : String
  srcAmount : String
  srcSafetyDeposit : String
  srcTimelocks : String
  srcStatus : String
  dstChainId : Nat
  dstTxHash : Option String
  dstBlockNumber : Option Nat
  dstBlockTimestamp : Option Nat
  dstLogIndex : Option Nat
  dstEscrowAddress : Option String
  dstMaker : String
  dstTaker : Option String
  dstToken : String
  dstAmount : String
  dstSafetyDeposit : String
  dstTimelocks : Option String
  dstStatus : String
deriving DecidableEq, Repr

/-- Rust `FusionPlusSwap::from_src_created`. -/
def FusionPlusSwap.fromSrcCreated (data : SrcEscrowCreatedData) (chainId : Nat)
    (txHash : String) (blockNumber blockTimestamp logIndex : Nat) : FusionPlusSwap where
  orderHash := data.orderHash
  hashlock := data.hashlock
  secret := none
  srcChainId := chainId
  srcTxHash := txHash
  srcBlockNumber := blockNumber
  srcBlockTimestamp := blockTimestamp
  srcLogIndex := logIndex
  srcEscrowAddress := none
  srcMaker := data.srcMaker
  srcTaker := data.srcTaker
  srcToken := data.srcToken
  srcAmount := data.srcAmount
  srcSafetyDeposit := data.srcSafetyDeposit
  srcTimelocks := data.srcTimelocks
  srcStatus := "created"
  dstChainId := data.dstChainId
  dstTxHash := none
  dstBlockNumber := none
  dstBlockTimestamp := none
  dstLogIndex := none
  dstEscrowAddress := none
  dstMaker := data.dstMaker
  dstTaker := none
  dstToken := data.dstToken
  dstAmount := data.dstAmount
  dstSafetyDeposit := data.dstSafetyDeposit
  dstTimelocks := none
  dstStatus := "pending"

/-- Data decoded from `OrderFilled` / `OrderCancelled` (`types.rs`). -/
structure OrderFilledData where
  maker : String
  orderHash : String
  remaining : String
deriving DecidableEq, Repr

/-- Single-chain Fusion swap record (`types.rs` `FusionSwap`). -/
structure FusionSwap where
  orderHash : String
  chainId : Nat
  txHash : String
  blockNumber : Nat
  blockTimestamp : Nat
  logIndex : Nat
  maker : String
  makerToken : Option String
  takerToken : Option String
  makerAmount : Option String
  takerAmount : Option String
  remaining : String
  isPartialFill : Bool
  status : String
deriving DecidableEq, Repr

/-! Decoders from `fusion.rs`. -/

/-- The 32-byte word at index `idx` of a stripped payload: the closure
`get_word` of the decoders. -/
def getWord (hex : List Char) (idx : Nat) : List Char :=
  sliceChars hex (idx * 64) ((idx + 1) * 64)

/-- The closure `to_address`: `format!("0x{}", &word[24..].to_lowercase())`. -/
def wordToAddress (word : List Char) : String :=
  ⟨'0' :: 'x' :: (word.drop 24).map charLower⟩

/-- The closure `to_bytes32`: `format!("0x{}", word.to_lowercase())`. -/
def wordToBytes32 (word : List Char) : String :=
  ⟨'0' :: 'x' :: word.map charLower⟩

/-- Rust `decode_src_escrow_created` (`fusion.rs`, 13 words). -/
def decode_src_escrow_created (data : String) : Option SrcEscrowCreatedData :=
  let hex := (strip0x data).data
  if hex.length < 13 * 64 then none
  else some
    { orderHash := wordToBytes32 (getWord hex 0)
      hashlock := wordToBytes32 (getWord hex 1)
      srcMaker := wordToAddress (getWord hex 2)
      srcTaker := wordToAddress (getWord hex 3)
      srcToken := wordToAddress (getWord hex 4)
      srcAmount := wordToBytes32 (getWord hex 5)
      srcSafetyDeposit := wordToBytes32 (getWord hex 6)
      srcTimelocks := wordToBytes32 (getWord hex 7)
      dstMaker := wordToAddress (getWord hex 8)
      dstAmount := wordToBytes32 (getWord hex 9)
      dstToken := wordToAddress (getWord hex 10)
      dstSafetyDeposit := wordToBytes32 (getWord hex 11)
      dstChainId := parseHexOr0 32 ⟨getWord hex 12⟩ }

/-- Rust `decode_dst_escrow_created` (`fusion.rs`, 8 words). -/
def decode_dst_escrow_created (data : String) : Option DstEscrowCreatedData :=
  let hex := (strip0x data).data
  if hex.length < 8 * 64 then none
  else some
    { orderHash := wordToBytes32 (getWord hex 0)
      hashlock := wordToBytes32 (getWord hex 1)
      dstMaker := wordToAddress (getWord hex 2)
      dstTaker := wordToAddress (getWord hex 3)
      dstToken := wordToAddress (getWord hex 4)
      dstAmount := wordToBytes32 (getWord hex 5)
      dstSafetyDeposit := wordToBytes32 (getWord hex 6)
      dstTimelocks := wordToBytes32 (getWord hex 7) }

/-- Rust `decode_escrow_withdrawal` (`fusion.rs`, 1 word: the secret). -/
def decode_escrow_withdrawal (data : String) : Option String :=
  let hex := (strip0x data).data
  if hex.length < 64 then none
  else some ⟨'0' :: 'x' :: (sliceChars hex 0 64).map charLower⟩

/-- Rust `compute_hashlock_from_secret` (`fusion.rs`); `keccak` is the
abstract `Keccak256` byte function. -/
def compute_hashlock_from_secret (keccak : List Nat → List Nat)
    (secret : String) : Option String :=
  match hexDecodeBytes (strip0x secret).data with
  | none => none
  | some bytes => some ⟨'0' :: 'x' :: hexEncodeBytes (keccak bytes)⟩

/-- Rust `decode_order_filled` (`fusion.rs`, 2 words). -/
def decode_order_filled (topics : List String) (data : String) : Option OrderFilledData :=
  if topics.isEmpty then none
  else
    let hex := (strip0x data).data
    if hex.length < 128 then none
    else some
      { maker := ""
        orderHash := ⟨'0' :: 'x' :: (getWord hex 0).map charLower⟩
        remaining := ⟨'0' :: 'x' :: (getWord hex 1).map charLower⟩ }

/-! Store model from `db.rs`. Each SQLite table is a list of rows in
insertion order; the SQL `INSERT OR IGNORE` / `UPDATE` / `SELECT`
statements are translated predicate-for-predicate. -/

/-- One row of the per-chain `transfers` table, `UNIQUE(tx_hash, log_index)`. -/
structure TransferRow where
  txHash : String
  logIndex : Nat
  token : String
  fromAddr : String
  toAddr : String
  value : String
  blockNumber : Nat
  blockTimestamp : Nat
  swapType : Option String
deriving DecidableEq, Repr

/-- Rust `ChainDatabase::insert_transfer` body: `INSERT OR IGNORE` keyed on
`(tx_hash, log_index)`, lowercasing `token`, `from_addr`, `to_addr`. -/
def insertTransferRow (table : List TransferRow) (t : Transfer) :
    List TransferRow × Bool :=
  if table.any (fun r => r.txHash == t.txHash && r.logIndex == t.logIndex) then
    (table, false)
  else
    (table ++ [{ txHash := t.txHash
                 logIndex := t.logIndex
                 token := strLower t.token
                 fromAddr := strLower t.fromAddr
                 toAddr := strLower t.toAddr
                 value := t.value
                 blockNumber := t.blockNumber
                 blockTimestamp := t.blockTimestamp
                 swapType := none }], true)

/-- Rust `ChainDatabase::insert_transfers_batch`: one transaction of
`INSERT OR IGNORE` statements, returning the number of rows inserted. -/
def insert_transfers_batch (table : List TransferRow) :
    List Transfer → List TransferRow × Nat
  | [] => (table, 0)
  | t :: rest =>
    let (table', ok) := insertTransferRow table t
    let (table'', n) := insert_transfers_batch table' rest
    (table'', (if ok then 1 else 0) + n)

/-- Rust `ChainDatabase::label_transfers_as_fusion`:
`UPDATE transfers SET swap_type = label WHERE tx_hash = lower(tx_hash)`. -/
def label_transfers_as_fusion (table : List TransferRow)
    (txHash swapType : String) : List TransferRow :=
  table.map fun r =>
    if r.txHash == strLower txHash then { r with swapType := some swapType } else r

/-- Rust `ChainDatabase::get_transfers_by_tx_hash`:
`WHERE tx_hash = lower(tx) ORDER BY log_index ASC` (stable insertion sort). -/
def insertByLogIndex (r : TransferRow) : List TransferRow → List TransferRow
  | [] => [r]
  | x :: xs => if r.logIndex < x.logIndex then r :: x :: xs else x :: insertByLogIndex r xs

/-- Stable sort of transfer rows by ascending `log_index`. -/
def sortByLogIndex : List TransferRow → List TransferRow
  | [] => []
  | x :: xs => insertByLogIndex x (sortByLogIndex xs)

/-- Rust `ChainDatabase::get_transfers_by_tx_hash`. -/
def get_transfers_by_tx_hash (table : List TransferRow) (txHash : String) :
    List TransferRow :=
  sortByLogIndex (table.filter fun r => r.txHash == strLower txHash)

/-- Rust `SharedDatabase::insert_fusion_plus_swap`: `INSERT OR IGNORE` keyed
on the unique `order_hash`, lowercasing the hash and address fields as in the
`params!` list. -/
def insert_fusion_plus_swap (table : List FusionPlusSwap) (swap : FusionPlusSwap) :
    List FusionPlusSwap × Bool :=
  if table.any (fun r => r.orderHash == strLower swap.orderHash) then
    (table, false)
  else
    (table ++ [{ swap with
                 orderHash := strLower swap.orderHash
                 hashlock := strLower swap.hashlock
                 srcTxHash := strLower swap.srcTxHash
                 srcEscrowAddress := swap.srcEscrowAddress.map strLower
                 srcMaker := strLower swap.srcMaker
                 srcTaker := strLower swap.srcTaker
                 srcToken := strLower swap.srcToken
                 dstTxHash := swap.dstTxHash.map strLower
                 dstEscrowAddress := swap.dstEscrowAddress.map strLower
                 dstMaker := strLower swap.dstMaker
                 dstTaker := swap.dstTaker.map strLower
                 dstToken := strLower swap.dstToken }], true)

/-- Rust `SharedDatabase::update_fusion_plus_dst`: the `UPDATE` hits every row
with `order_hash = lower(order_hash) AND dst_chain_id = chain_id` and
unconditionally rewrites the destination columns, setting
`dst_status = 'created'`. -/
def updateDstRow (d : DstEscrowCreatedData) (txHash : String)
    (blockNumber blockTimestamp logIndex : Nat) (escrowAddress : Option String)
    (r : FusionPlusSwap) : FusionPlusSwap :=
  { r with
    dstTxHash := some (strLower txHash)
    dstBlockNumber := some blockNumber
    dstBlockTimestamp := some blockTimestamp
    dstLogIndex := some logIndex
    dstEscrowAddress := escrowAddress.map strLower
    dstTaker := some (strLower d.dstTaker)
    dstTimelocks := some d.dstTimelocks
    dstStatus := "created" }

/-- Match predicate of the `update_fusion_plus_dst` statement. -/
def dstUpdateMatch (orderHash : String) (chainId : Nat) (r : FusionPlusSwap) : Bool :=
  r.orderHash == strLower orderHash && r.dstChainId == chainId

/-- Rust `SharedDatabase::update_fusion_plus_dst`; the boolean is
`rows_changed > 0`. -/
def update_fusion_plus_dst (table : List FusionPlusSwap) (orderHash : String)
    (d : DstEscrowCreatedData) (chainId : Nat) (txHash : String)
    (blockNumber blockTimestamp logIndex : Nat) (escrowAddress : Option String) :
    List FusionPlusSwap × Bool :=
  (table.map fun r =>
      if dstUpdateMatch orderHash chainId r then
        updateDstRow d txHash blockNumber blockTimestamp logIndex escrowAddress r
      else r,
    table.any (dstUpdateMatch orderHash chainId))

/-- Rust `SharedDatabase::update_fusion_plus_withdrawal_by_hashlock`,
`is_src = true` branch: set `src_status`, store the lowercased secret on rows
with `hashlock = lower(hashlock) AND src_chain_id = chain_id`. -/
def withdrawSrcRow (secret : String) (r : FusionPlusSwap) : FusionPlusSwap :=
  { r with srcStatus := "withdrawn", secret := some (strLower secret) }

/-- Rust `update_fusion_plus_withdrawal_by_hashlock`, `is_src = false` branch:
additionally overwrites the four destination tx-coordinate columns. -/
def withdrawDstRow (secret txHash : String)
    (blockNumber blockTimestamp logIndex : Nat) (r : FusionPlusSwap) : FusionPlusSwap :=
  { r with
    dstStatus := "withdrawn"
    dstTxHash := some (strLower txHash)
    dstBlockNumber := some blockNumber
    dstBlockTimestamp := some blockTimestamp
    dstLogIndex := some logIndex
    secret := some (strLower secret) }

/-- Match predicate of the withdrawal `UPDATE` statement. -/
def withdrawMatch (hashlock : String) (chainId : Nat) (isSrc : Bool)
    (r : FusionPlusSwap) : Bool :=
  r.hashlock == strLower hashlock &&
    (if isSrc then r.srcChainId == chainId else r.dstChainId == chainId)

/-- Rust `SharedDatabase::update_fusion_plus_withdrawal_by_hashlock`. -/
def update_fusion_plus_withdrawal_by_hashlock (table : List FusionPlusSwap)
    (hashlock : String) (chainId : Nat) (isSrc : Bool) (secret txHash : String)
    (blockNumber blockTimestamp logIndex : Nat) : List FusionPlusSwap × Bool :=
  (table.map fun r =>
      if withdrawMatch hashlock chainId isSrc r then
        if isSrc then withdrawSrcRow secret r
        else withdrawDstRow secret txHash blockNumber blockTimestamp logIndex r
      else r,
    table.any (withdrawMatch hashlock chainId isSrc))

/-- Rust `SharedDatabase::get_fusion_plus_swap_by_hashlock`: first row with
`hashlock = lower(hashlock)`. -/
def get_fusion_plus_swap_by_hashlock (table : List FusionPlusSwap)
    (hashlock : String) : Option FusionPlusSwap :=
  table.find? fun r => r.hashlock == strLower hashlock

/-- Rust `SharedDatabase::insert_fusion_swap`: `INSERT OR IGNORE` keyed on
`UNIQUE(chain_id, tx_hash, log_index)`, lowercasing as in the `params!` list. -/
def insert_fusion_swap (table : List FusionSwap) (swap : FusionSwap) :
    List FusionSwap × Bool :=
  if table.any (fun r =>
      r.chainId == swap.chainId && r.txHash == strLower swap.txHash &&
        r.logIndex == swap.logIndex) then
    (table, false)
  else
    (table ++ [{ swap with
                 orderHash := strLower swap.orderHash
                 txHash := strLower swap.txHash
                 maker := strLower swap.maker
                 makerToken := swap.makerToken.map strLower
                 takerToken := swap.takerToken.map strLower }], true)

/-- The store state a single poller reads and writes: its chain's `transfers`
table and checkpoint row, plus the shared Fusion tables. -/
structure DB where
  transfers : List TransferRow
  checkpoint : Option Nat
  fusionPlus : List FusionPlusSwap
  fusionSwaps : List FusionSwap
deriving DecidableEq, Repr

/-- The freshly created store. -/
def DB.empty : DB :=
  { transfers := [], checkpoint := none, fusionPlus := [], fusionSwaps := [] }

/-! Poller model from `poller.rs`. RPC calls are an oracle environment; the
block-timestamp cache is behaviourally transparent over a pure oracle and is
therefore folded into `Env.timestamp`. -/

/-- Rust `PollerConfig`. -/
structure PollerConfig where
  reorgSafetyBlocks : Nat
  confirmationBlocks : Nat
  pollIntervalMs : Nat
  maxBlocksPerQuery : Nat
  maxBackfillBlocks : Nat
deriving DecidableEq, Repr

/-- Rust `PollerConfig::default`. -/
def PollerConfig.default : PollerConfig :=
  { reorgSafetyBlocks := 10
    confirmationBlocks := 3
    pollIntervalMs := 2000
    maxBlocksPerQuery := 100
    maxBackfillBlocks := 500 }

/-- Oracle for the RPC calls one poll iteration performs, together with the
poller's chain id and the abstract keccak function. -/
structure Env where
  chainId : Nat
  keccak : List Nat → List Nat
  blockNumber : Except String Nat
  transferLogs : Nat → Nat → Except String (List Log)
  factoryLogs : Nat → Nat → Except String (List Log)
  escrowLogs : Nat → Nat → Except String (List Log)
  routerLogs : Nat → Nat → Except String (List Log)
  timestamp : Nat → Except String Nat

/-- The `from_block` computation of `poll_once`:
`(last + 1).max(last.saturating_sub(reorg_safety_blocks) + 1)`. -/
def fromBlockCalc (last reorgSafetyBlocks : Nat) : Nat :=
  max (last + 1) (last - reorgSafetyBlocks + 1)

/-- The transfer-building loop of `poll_once`: skip logs with fewer than 3
topics, resolve the block timestamp (an error aborts the iteration), strip the
24-byte padding of topics 1 and 2. -/
def buildTransfers (env : Env) : List Log → Except String (List Transfer)
  | [] => .ok []
  | log :: rest =>
    if log.topics.length < 3 then buildTransfers env rest
    else
      match env.timestamp log.blockNumberU64 with
      | .error e => .error e
      | .ok ts =>
        match buildTransfers env rest with
        | .error e => .error e
        | .ok ts' =>
          .ok ({ chainId := env.chainId
                 txHash := log.transactionHash
                 logIndex := log.logIndexU32
                 token := strLower log.address
                 fromAddr := ⟨'0' :: 'x' :: (log.topics.getD 1 "").data.drop 26⟩
                 toAddr := ⟨'0' :: 'x' :: (log.topics.getD 2 "").data.drop 26⟩
                 value := log.data
                 blockNumber := log.blockNumberU64
                 blockTimestamp := ts } :: ts')

/-- Rust `ChainPoller::process_src_escrow_created`; the boolean reports
success (a decode failure is an `Err` the caller logs and skips). -/
def processSrcEscrowCreated (chainId : Nat) (log : Log) (ts : Nat) (db : DB) :
    DB × Bool :=
  match decode_src_escrow_created log.data with
  | none => (db, false)
  | some d =>
    let swap := FusionPlusSwap.fromSrcCreated d chainId log.transactionHash
      log.blockNumberU64 ts log.logIndexU32
    let db := { db with fusionPlus := (insert_fusion_plus_swap db.fusionPlus swap).1 }
    let db := { db with
      transfers := label_transfers_as_fusion db.transfers log.transactionHash "fusion_plus" }
    (db, true)

/-- Rust `ChainPoller::process_dst_escrow_created`. -/
def processDstEscrowCreated (chainId : Nat) (log : Log) (ts : Nat) (db : DB) :
    DB × Bool :=
  match decode_dst_escrow_created log.data with
  | none => (db, false)
  | some d =>
    let db := { db with
      fusionPlus := (update_fusion_plus_dst db.fusionPlus d.orderHash d chainId
        log.transactionHash log.blockNumberU64 ts log.logIndexU32 (some log.address)).1 }
    let db := { db with
      transfers := label_transfers_as_fusion db.transfers log.transactionHash "fusion_plus" }
    (db, true)

/-- Rust `ChainPoller::process_escrow_withdrawal`: decode the secret, derive
the hashlock, look the swap up by hashlock, update the matching side, then
label the transfers. -/
def processEscrowWithdrawal (keccak : List Nat → List Nat) (chainId : Nat)
    (log : Log) (ts : Nat) (db : DB) : DB × Bool :=
  match decode_escrow_withdrawal log.data with
  | none => (db, false)
  | some secret =>
    match compute_hashlock_from_secret keccak secret with
    | none => (db, false)
    | some hashlock =>
      let db :=
        match get_fusion_plus_swap_by_hashlock db.fusionPlus hashlock with
        | some swap =>
          let isSrc := swap.srcChainId == chainId
          { db with
            fusionPlus := (update_fusion_plus_withdrawal_by_hashlock db.fusionPlus
              hashlock chainId isSrc secret log.transactionHash
              log.blockNumberU64 ts log.logIndexU32).1 }
        | none => db
      let db := { db with
        transfers := label_transfers_as_fusion db.transfers log.transactionHash "fusion_plus" }
      (db, true)

/-- Rust `ChainPoller::process_escrow_cancelled`: label transfers only. -/
def processEscrowCancelled (log : Log) (db : DB) : DB × Bool :=
  ({ db with
     transfers := label_transfers_as_fusion db.transfers log.transactionHash "fusion_plus" },
   true)

/-- Well-known router addresses excluded by
`extract_swap_details_from_transfers`. -/
def routerAddresses : List String :=
  [ "0x111111125421ca6dc452d289314280a0f8842a65",
    "0x1111111254eeb25477b68fb85ed929f73a960582",
    "0x6fd4383cb451173d5f9304f041c7bcbf27d561ff" ]

/-- Rust `HashMap::entry(k).or_default().push(v)` on an association list kept in
first-insertion key order (the embedding fixes the iteration order the Rust
`HashMap` leaves unspecified). -/
def alistPush (m : List (String × List (String × String))) (k : String)
    (v : String × String) : List (String × List (String × String)) :=
  match m with
  | [] => [(k, [v])]
  | (k', vs) :: rest =>
    if k' == k then (k', vs ++ [v]) :: rest else (k', vs) :: alistPush rest k v

/-- Association-list lookup. -/
def alistGet (m : List (String × List (String × String))) (k : String) :
    Option (List (String × String)) :=
  match m.find? (fun p => p.1 == k) with
  | some p => some p.2
  | none => none

/-- Result of the transfer-based enrichment. -/
structure SwapDetails where
  maker : String
  makerToken : Option String
  takerToken : Option String
  makerAmount : Option String
  takerAmount : Option String
deriving DecidableEq, Repr

/-- The unresolved enrichment fallback `(String::new(), None, None, None, None)`. -/
def SwapDetails.unresolved : SwapDetails :=
  { maker := "", makerToken := none, takerToken := none,
    makerAmount := none, takerAmount := none }

/-- The maker-selection scan of `extract_swap_details_from_transfers`: first
non-router address that both sent and received, whose first sent token differs
from its first received token. -/
def scanMaker (receivedBy : List (String × List (String × String))) :
    List (String × List (String × String)) → SwapDetails
  | [] => SwapDetails.unresolved
  | (addr, sentTokens) :: rest =>
    if routerAddresses.contains addr then scanMaker receivedBy rest
    else
      match alistGet receivedBy addr with
      | some receivedTokens =>
        match sentTokens.head?, receivedTokens.head? with
        | some (mt, ma), some (tt, ta) =>
          if mt ≠ tt then
            { maker := addr, makerToken := some mt, takerToken := some tt,
              makerAmount := some ma, takerAmount := some ta }
          else scanMaker receivedBy rest
        | _, _ => scanMaker receivedBy rest
      | none => scanMaker receivedBy rest

/-- The map-building loop of `extract_swap_details_from_transfers`,
processing the transfers in list order. -/
def buildSentReceived (ts : List TransferRow) :
    List (String × List (String × String)) ×
      List (String × List (String × String)) :=
  ts.foldl
    (fun p t =>
      (alistPush p.1 t.fromAddr (t.token, t.value),
       alistPush p.2 t.toAddr (t.token, t.value)))
    ([], [])

/-- Rust `ChainPoller::extract_swap_details_from_transfers`. -/
def extract_swap_details_from_transfers (transfers : List TransferRow)
    (txHash : String) : SwapDetails :=
  let ts := get_transfers_by_tx_hash transfers txHash
  if ts.isEmpty then SwapDetails.unresolved
  else
    let maps := buildSentReceived ts
    scanMaker maps.2 maps.1

/-- Rust `ChainPoller::process_order_filled` (also used for `OrderCancelled`
with `status = "cancelled"`). -/
def processOrderFilled (chainId : Nat) (log : Log) (ts : Nat) (status : String)
    (db : DB) : DB × Bool :=
  match decode_order_filled log.topics log.data with
  | none => (db, false)
  | some d =>
    let remainingHex := trim0x d.remaining
    let isPartial := ! remainingHex.data.all (fun c => c == '0')
    let det := extract_swap_details_from_transfers db.transfers log.transactionHash
    let swap : FusionSwap :=
      { orderHash := d.orderHash
        chainId := chainId
        txHash := log.transactionHash
        blockNumber := log.blockNumberU64
        blockTimestamp := ts
        logIndex := log.logIndexU32
        maker := det.maker
        makerToken := det.makerToken
        takerToken := det.takerToken
        makerAmount := det.makerAmount
        takerAmount := det.takerAmount
        remaining := d.remaining
        isPartialFill := isPartial
        status := status }
    let db := { db with fusionSwaps := (insert_fusion_swap db.fusionSwaps swap).1 }
    let db := { db with
      transfers := label_transfers_as_fusion db.transfers log.transactionHash "fusion" }
    (db, true)

/-- The `factory_logs` loop of `poll_fusion_plus_events`: a timestamp failure
aborts the iteration; a handler failure is logged and skipped, a handled event
increments the count. -/
def runFactoryLogs (env : Env) : List Log → DB → Nat → DB × Except String Nat
  | [], db, n => (db, .ok n)
  | log :: rest, db, n =>
    if log.topics.isEmpty then runFactoryLogs env rest db n
    else
      match env.timestamp log.blockNumberU64 with
      | .error e => (db, .error e)
      | .ok ts =>
        if strLower (log.topics.headD "") == SRC_ESCROW_CREATED_TOPIC then
          let (db', ok) := processSrcEscrowCreated env.chainId log ts db
          runFactoryLogs env rest db' (n + if ok then 1 else 0)
        else if strLower (log.topics.headD "") == DST_ESCROW_CREATED_TOPIC then
          let (db', ok) := processDstEscrowCreated env.chainId log ts db
          runFactoryLogs env rest db' (n + if ok then 1 else 0)
        else runFactoryLogs env rest db n

/-- The `escrow_logs` loop of `poll_fusion_plus_events`. -/
def runEscrowLogs (env : Env) : List Log → DB → Nat → DB × Except String Nat
  | [], db, n => (db, .ok n)
  | log :: rest, db, n =>
    if log.topics.isEmpty then runEscrowLogs env rest db n
    else
      match env.timestamp log.blockNumberU64 with
      | .error e => (db, .error e)
      | .ok ts =>
        if strLower (log.topics.headD "") == ESCROW_WITHDRAWAL_TOPIC then
          let (db', ok) := processEscrowWithdrawal env.keccak env.chainId log ts db
          runEscrowLogs env rest db' (n + if ok then 1 else 0)
        else if strLower (log.topics.headD "") == ESCROW_CANCELLED_TOPIC then
          let (db', ok) := processEscrowCancelled log db
          runEscrowLogs env rest db' (n + if ok then 1 else 0)
        else runEscrowLogs env rest db n

/-- Rust `ChainPoller::poll_fusion_plus_events`. Both `get_logs` calls use
`unwrap_or_default()`: a fetch failure is replaced by the empty log list. -/
def pollFusionPlusEvents (env : Env) (fromBlock toBlock : Nat) (db : DB) :
    DB × Except String Nat :=
  let factoryLogs :=
    match env.factoryLogs fromBlock toBlock with
    | .ok l => l
    | .error _ => []
  match runFactoryLogs env factoryLogs db 0 with
  | (db', .error e) => (db', .error e)
  | (db', .ok n1) =>
    let escrowLogs :=
      match env.escrowLogs fromBlock toBlock with
      | .ok l => l
      | .error _ => []
    runEscrowLogs env escrowLogs db' n1

/-- The router-log loop of `poll_fusion_events`. -/
def runRouterLogs (env : Env) : List Log → DB → Nat → DB × Except String Nat
  | [], db, n => (db, .ok n)
  | log :: rest, db, n =>
    if log.topics.isEmpty then runRouterLogs env rest db n
    else
      match env.timestamp log.blockNumberU64 with
      | .error e => (db, .error e)
      | .ok ts =>
        if strLower (log.topics.headD "") == ORDER_FILLED_TOPIC then
          let (db', ok) := processOrderFilled env.chainId log ts "filled" db
          runRouterLogs env rest db' (n + if ok then 1 else 0)
        else if strLower (log.topics.headD "") == ORDER_CANCELLED_TOPIC then
          let (db', ok) := processOrderFilled env.chainId log ts "cancelled" db
          runRouterLogs env rest db' (n + if ok then 1 else 0)
        else runRouterLogs env rest db n

/-- Rust `ChainPoller::poll_fusion_events`; the router-address selection only
affects which logs the oracle returns, so it is part of `Env.routerLogs`.
The fetch uses `unwrap_or_default()`. -/
def pollFusionEvents (env : Env) (fromBlock toBlock : Nat) (db : DB) :
    DB × Except String Nat :=
  let logs :=
    match env.routerLogs fromBlock toBlock with
    | .ok l => l
    | .error _ => []
  runRouterLogs env logs db 0

/-- Rust `ChainPoller::poll_once`. Returns the store after the iteration and,
on success, the new `last_processed_block` together with the processed-event
count; on failure the iteration is abandoned with the store as updated so
far. -/
def pollOnce (cfg : PollerConfig) (env : Env) (db : DB) (last : Nat) :
    DB × Except String (Nat × Nat) :=
  match env.blockNumber with
  | .error e => (db, .error e)
  | .ok currentBlock =>
    let toBlock := currentBlock - cfg.confirmationBlocks
    let fromBlock := fromBlockCalc last cfg.reorgSafetyBlocks
    if fromBlock > toBlock then (db, .ok (last, 0))
    else
      let actualToBlock := min (fromBlock + cfg.maxBlocksPerQuery - 1) toBlock
      match env.transferLogs fromBlock actualToBlock with
      | .error e => (db, .error e)
      | .ok logs =>
        match buildTransfers env logs with
        | .error e => (db, .error e)
        | .ok transfers =>
          let (table, inserted) := insert_transfers_batch db.transfers transfers
          let db := { db with transfers := table }
          match pollFusionPlusEvents env fromBlock actualToBlock db with
          | (db', .error e) => (db', .error e)
          | (db', .ok fusionPlusCount) =>
            match pollFusionEvents env fromBlock actualToBlock db' with
            | (db'', .error e) => (db'', .error e)
            | (db'', .ok fusionCount) =>
              ({ db'' with checkpoint := some actualToBlock },
               .ok (actualToBlock, inserted + fusionPlusCount + fusionCount))

/-- One turn of the `run` loop: on success adopt the new checkpoint, on error
keep polling from the old one. -/
def pollStep (cfg : PollerConfig) (env : Env) (s : DB × Nat) : DB × Nat :=
  match pollOnce cfg env s.1 s.2 with
  | (db, .ok p) => (db, p.1)
  | (db, .error _) => (db, s.2)

/-- Rust `ChainPoller::initialize_checkpoint`, given the fetched head and the
saved checkpoint: returns the start block and the checkpoint value written
back (if any). -/
def initCheckpoint (cfg : PollerConfig) (currentBlock : Nat)
    (saved : Option Nat) : Nat × Option Nat :=
  match saved with
  | some checkpoint =>
    let blocksBehind := currentBlock - checkpoint
    if blocksBehind > cfg.maxBackfillBlocks then
      let newStart := currentBlock - cfg.reorgSafetyBlocks
      (newStart, some newStart)
    else
      (checkpoint, none)
  | none =>
    let startBlock := currentBlock - cfg.reorgSafetyBlocks
    (startBlock, some startBlock)

/-! Fusion+ event alphabet: exactly the dispatches `poll_fusion_plus_events`
performs against the shared store, used to quantify over every reachable
sequence of processed escrow events. -/

/-- One Fusion+ event observed by some chain's poller. -/
inductive FpEvent where
  | srcCreated (chainId : Nat) (log : Log) (ts : Nat)
  | dstCreated (chainId : Nat) (log : Log) (ts : Nat)
  | withdrawal (chainId : Nat) (log : Log) (ts : Nat)
  | cancelled (chainId : Nat) (log : Log) (ts : Nat)

/-- Effect of one processed Fusion+ event on the store. -/
def fpStep (keccak : List Nat → List Nat) (db : DB) : FpEvent → DB
  | .srcCreated chainId log ts => (processSrcEscrowCreated chainId log ts db).1
  | .dstCreated chainId log ts => (processDstEscrowCreated chainId log ts db).1
  | .withdrawal chainId log ts => (processEscrowWithdrawal keccak chainId log ts db).1
  | .cancelled _ log _ => (processEscrowCancelled log db).1

/-- Store reached from empty after a sequence of processed Fusion+ events. -/
def fpRun (keccak : List Nat → List Nat) (events : List FpEvent) : DB :=
  events.foldl (fpStep keccak) DB.empty

/-! Retry model from `rpc.rs`. One attempt is the observable outcome of one
HTTP POST: its status code and, for a success status, the parsed JSON-RPC
body. -/

/-- Parsed body of a successful HTTP response. -/
inductive RpcBody where
  | err (code : Int) (message : String)
  | missing
  | result (v : Nat)
deriving DecidableEq, Repr

/-- Observable outcome of one HTTP POST. -/
structure Attempt where
  status : Nat
  body : RpcBody
deriving DecidableEq, Repr

/-- Rust `RpcClient::is_retryable_status`. -/
def is_retryable_status (status : Nat) : Bool :=
  status == 429 || status == 502 || status == 503 || status == 504

/-- reqwest `StatusCode::is_success` (2xx). -/
def isSuccessStatus (status : Nat) : Bool :=
  200 ≤ status && status ≤ 299

/-- Substring test on character lists, modelling `str::contains`. -/
def listContainsSub (hay needle : List Char) : Bool :=
  match hay with
  | [] => needle.isEmpty
  | _ :: t => needle.isPrefixOf hay || listContainsSub t needle

/-- The rate-limit test of `RpcClient::request` on a JSON-RPC error body:
`error.code == -32005 || error.message.to_lowercase().contains("rate")`. -/
def isRateLimitBody (code : Int) (message : String) : Bool :=
  code == -32005 || listContainsSub (strLower message).data "rate".data

/-- Outcome of `RpcClient::request` (`rpc.rs` `RpcError` plus success). -/
inductive RpcCallResult where
  | ok (v : Nat)
  | rpcError (msg : String)
  | parseError (msg : String)
  | rateLimited
deriving DecidableEq, Repr

/-- The retry loop of `RpcClient::request` over the stream of attempt
outcomes. Alongside the result it returns the list of backoff delays slept,
in order. `fuel` only bounds the recursion: started at `maxRetries + 1` it
never runs out, because every recursive call increments `retries`. -/
def requestLoop (base maxRetries : Nat) (att : Nat → Attempt) :
    Nat → Nat → Nat → RpcCallResult × List Nat
  | 0, _, _ => (.rateLimited, [])
  | fuel + 1, idx, retries =>
    let a := att idx
    if is_retryable_status a.status then
      let r := retries + 1
      if r > maxRetries then (.rateLimited, [])
      else
        let rec' := requestLoop base maxRetries att fuel (idx + 1) r
        (rec'.1, base * 2 ^ (r - 1) :: rec'.2)
    else if ! isSuccessStatus a.status then
      (.rpcError ("HTTP error " ++ toString a.status), [])
    else
      match a.body with
      | .err code message =>
        if isRateLimitBody code message then
          let r := retries + 1
          if r > maxRetries then (.rateLimited, [])
          else
            let rec' := requestLoop base maxRetries att fuel (idx + 1) r
            (rec'.1, base * 2 ^ (r - 1) :: rec'.2)
        else (.rpcError ("RPC error " ++ toString code ++ ": " ++ message), [])
      | .missing => (.parseError "Missing result in RPC response", [])
      | .result v => (.ok v, [])

/-- Rust `RpcClient::request` on a stream of attempt outcomes. -/
def request (base maxRetries : Nat) (att : Nat → Attempt) :
    RpcCallResult × List Nat :=
  requestLoop base maxRetries att (maxRetries + 1) 0 0

/-- An attempt outcome that takes the retry branch of `RpcClient::request`:
a retryable HTTP status, or a success status whose JSON-RPC error body passes
the rate-limit test. -/
def retryableAttempt (a : Attempt) : Bool :=
  is_retryable_status a.status ||
    (isSuccessStatus a.status &&
      match a.body with
      | .err code message => isRateLimitBody code message
      | _ => false)

/-- How a non-retryable attempt outcome settles the call. -/
def settleAttempt (a : Attempt) : RpcCallResult :=
  if ! isSuccessStatus a.status then .rpcError ("HTTP error " ++ toString a.status)
  else
    match a.body with
    | .err code message => .rpcError ("RPC error " ++ toString code ++ ": " ++ message)
    | .missing => .parseError "Missing result in RPC response"
    | .result v => .ok v

/-- The secret / hashlock correlation invariant on the shared store. -/
def secretInvariant (keccak : List Nat → List Nat) (db : DB) : Prop :=
  ∀ r ∈ db.fusionPlus, ∀ s, r.secret = some s →
    compute_hashlock_from_secret keccak s = some r.hashlock

/-! Concrete scenario material used by counterexamples and witnesses. -/

/-- Stand-in keccak function for concrete runs. -/
def dummyKeccak : List Nat → List Nat :=
  fun _ => List.replicate 32 0

/-- A string of `n` zero digits. -/
def zerosStr (n : Nat) : String :=
  ⟨List.replicate n '0'⟩

/-- An RPC log fetch returning no logs. -/
def okEmptyLogs : Nat → Nat → Except String (List Log) :=
  fun _ _ => .ok []

/-- A `SrcEscrowCreated` log with an all-zero 13-word payload, seen on
chain 1 (so `dst_chain_id` decodes to 0). -/
def srcLog0 : Log :=
  { address := "0xa7bcb4eac8964306f9e3764f67db6a7af6ddf99a"
    topics := [SRC_ESCROW_CREATED_TOPIC]
    data := zerosStr 832
    blockNumber := "0x64"
    transactionHash := "0xaaa0"
    logIndex := "0x0" }

/-- A matching `DstEscrowCreated` log with an all-zero 8-word payload. -/
def dstLogA : Log :=
  { address := "0xa7bcb4eac8964306f9e3764f67db6a7af6ddf99a"
    topics := [DST_ESCROW_CREATED_TOPIC]
    data := zerosStr 512
    blockNumber := "0x65"
    transactionHash := "0xaaa1"
    logIndex := "0x0" }

/-- A matching `EscrowWithdrawal` log revealing the all-zero secret. -/
def wdLog0 : Log :=
  { address := "0xe5c0"
    topics := [ESCROW_WITHDRAWAL_TOPIC]
    data := zerosStr 64
    blockNumber := "0x66"
    transactionHash := "0xaaa2"
    logIndex := "0x0" }

/-- Source creation on chain 1, destination creation and withdrawal on
chain 0: the destination side ends `withdrawn`. -/
def fpEvs1 : List FpEvent :=
  [.srcCreated 1 srcLog0 5, .dstCreated 0 dstLogA 6, .withdrawal 0 wdLog0 7]

/-- The same run followed by a replayed `DstEscrowCreated`. -/
def fpEvs2 : List FpEvent :=
  fpEvs1 ++ [.dstCreated 0 dstLogA 8]

/-- A fully populated swap row whose destination side is already set, for the
withdrawal frame-effect counterexample. -/
def c4Row : FusionPlusSwap :=
  { orderHash := "0xoh"
    hashlock := "0xhl"
    secret := none
    srcChainId := 1
    srcTxHash := "0xsrc"
    srcBlockNumber := 10
    srcBlockTimestamp := 100
    srcLogIndex := 0
    srcEscrowAddress := none
    srcMaker := "0xm"
    srcTaker := "0xt"
    srcToken := "0xtok"
    srcAmount := "0x01"
    srcSafetyDeposit := "0x02"
    srcTimelocks := "0x03"
    srcStatus := "created"
    dstChainId := 5
    dstTxHash := some "0xold"
    dstBlockNumber := some 20
    dstBlockTimestamp := some 200
    dstLogIndex := some 3
    dstEscrowAddress := some "0xe"
    dstMaker := "0xdm"
    dstTaker := some "0xdt"
    dstToken := "0xdtok"
    dstAmount := "0x04"
    dstSafetyDeposit := "0x05"
    dstTimelocks := some "0x06"
    dstStatus := "created" }

/-- Oracle for the re-org overlap scenario: head 213, no logs anywhere. -/
def env1 : Env :=
  { chainId := 1
    keccak := dummyKeccak
    blockNumber := .ok 213
    transferLogs := okEmptyLogs
    factoryLogs := okEmptyLogs
    escrowLogs := okEmptyLogs
    routerLogs := okEmptyLogs
    timestamp := fun n => .ok n }

/-- Oracle whose Fusion+ factory-log fetch fails while everything else
succeeds. -/
def env2 : Env :=
  { env1 with factoryLogs := fun _ _ => .error "factory fetch failed", blockNumber := .ok 113 }

/-- Oracle whose transfer-log fetch fails. -/
def env2a : Env :=
  { env1 with transferLogs := fun _ _ => .error "transfer fetch failed", blockNumber := .ok 113 }

/-- A 32-byte topic word holding the given tail characters. -/
def topicPad (l : List Char) : String :=
  ⟨'0' :: 'x' :: (List.replicate (64 - l.length) '0' ++ l)⟩

/-- First transfer log of the dedup scenario (block 100). -/
def tlog1 : Log :=
  { address := "0xtoken1"
    topics := [TRANSFER_TOPIC, topicPad ['a'], topicPad ['b']]
    data := "0x01"
    blockNumber := "0x64"
    transactionHash := "0xt1"
    logIndex := "0x0" }

/-- Second transfer log of the dedup scenario (block 110). -/
def tlog2 : Log :=
  { address := "0xtoken1"
    topics := [TRANSFER_TOPIC, topicPad ['a'], topicPad ['c']]
    data := "0x02"
    blockNumber := "0x6e"
    transactionHash := "0xt2"
    logIndex := "0x1" }

/-- Oracle for the dedup scenario: head 113 (so blocks up to 110 are
confirmed) and the same transfer-log response on every fetch. -/
def env8 : Env :=
  { env1 with
    blockNumber := .ok 113
    transferLogs := fun _ _ => .ok [tlog1, tlog2] }

/-- A stored transfer row for the batch-dedup witness. -/
def w8Row : TransferRow :=
  { txHash := "0xt9"
    logIndex := 4
    token := "0xtok"
    fromAddr := "0xa"
    toAddr := "0xb"
    value := "0x05"
    blockNumber := 100
    blockTimestamp := 1000
    swapType := none }

/-- A transfer carrying the same `(tx_hash, log_index)` key as `w8Row`. -/
def w8Dup : Transfer :=
  { chainId := 1
    txHash := "0xt9"
    logIndex := 4
    token := "0xTOK"
    fromAddr := "0xA"
    toAddr := "0xB"
    value := "0x07"
    blockNumber := 100
    blockTimestamp := 1000 }

/-- An `OrderFilled` log whose remaining-amount word is nonzero. -/
def ofLog1 : Log :=
  { address := "0x111111125421ca6dc452d289314280a0f8842a65"
    topics := [ORDER_FILLED_TOPIC]
    data := ⟨List.replicate 127 '0' ++ ['1']⟩
    blockNumber := "0x64"
    transactionHash := "0xf1"
    logIndex := "0x0" }

/-- Attempt stream for the retry witness: two HTTP 429 responses, then a
success carrying result 7. -/
def attStream1 : Nat → Attempt :=
  fun i => if i < 2 then { status := 429, body := .missing }
    else { status := 200, body := .result 7 }

/-- Destination-data record for the dst-update witness. -/
def d0 : DstEscrowCreatedData :=
  { orderHash := "0xoh"
    hashlock := "0xhl"
    dstMaker := "0xdm"
    dstTaker := "0xdt2"
    dstToken := "0xdtok"
    dstAmount := "0x04"
    dstSafetyDeposit := "0x05"
    dstTimelocks := "0x07" }

/-- The `actual_to_block` computation of `poll_once` for a given head. -/
def windowTo (cfg : PollerConfig) (last h : Nat) : Nat :=
  min (fromBlockCalc last cfg.reorgSafetyBlocks + cfg.maxBlocksPerQuery - 1)
    (h - cfg.confirmationBlocks)

/-- Oracle whose three Fusion-related log fetches all fail while the
transfer fetch succeeds with no logs. -/
def env2b : Env :=
  { env1 with
    blockNumber := .ok 113
    factoryLogs := fun _ _ => .error "factory fetch failed"
    escrowLogs := fun _ _ => .error "escrow fetch failed"
    routerLogs := fun _ _ => .error "router fetch failed" }

/-- The order data decoded from `ofLog1`. -/
def d10 : OrderFilledData :=
  { maker := ""
    orderHash := ⟨'0' :: 'x' :: List.replicate 64 '0'⟩
    remaining := ⟨'0' :: 'x' :: (List.replicate 63 '0' ++ ['1'])⟩ }

/-- The Fusion swap row stored for `ofLog1`. -/
def r10 : FusionSwap :=
  { orderHash := ⟨'0' :: 'x' :: List.replicate 64 '0'⟩
    chainId := 1
    txHash := "0xf1"
    blockNumber := 100
    blockTimestamp := 5
    logIndex := 0
    maker := ""
    makerToken := none
    takerToken := none
    makerAmount := none
    takerAmount := none
    remaining := ⟨'0' :: 'x' :: (List.replicate 63 '0' ++ ['1'])⟩
    isPartialFill := true
    status := "filled" }

/-- The 20-byte zero address as stored. -/
def addr0 : String :=
  ⟨'0' :: 'x' :: List.replicate 40 '0'⟩

/-- The 32-byte zero word as stored. -/
def word0 : String :=
  ⟨'0' :: 'x' :: List.replicate 64 '0'⟩

/-- Source creation on chain 1 followed by the revealing withdrawal on
chain 0. -/
def fpEvs7 : List FpEvent :=
  [.srcCreated 1 srcLog0 5, .withdrawal 0 wdLog0 7]

/-- The swap row reached by `fpEvs7`: destination withdrawn, secret
revealed. -/
def r7 : FusionPlusSwap :=
  { orderHash := word0
    hashlock := word0
    secret := some word0
    srcChainId := 1
    srcTxHash := "0xaaa0"
    srcBlockNumber := 100
    srcBlockTimestamp := 5
    srcLogIndex := 0
    srcEscrowAddress := none
    srcMaker := addr0
    srcTaker := addr0
    srcToken := addr0
    srcAmount := word0
    srcSafetyDeposit := word0
    srcTimelocks := word0
    srcStatus := "created"
    dstChainId := 0
    dstTxHash := some "0xaaa2"
    dstBlockNumber := some 102
    dstBlockTimestamp := some 7
    dstLogIndex := some 0
    dstEscrowAddress := none
    dstMaker := addr0
    dstTaker := none
    dstToken := addr0
    dstAmount := word0
    dstSafetyDeposit := word0
    dstTimelocks := none
    dstStatus := "withdrawn" }

/-! Theorems. -/

/-- A conditional map over rows whose condition holds nowhere is the
identity. -/
theorem map_ite_eq_self {α : Type} (p : α → Bool) (f : α → α) :
    ∀ l : List α, (∀ r ∈ l, p r = false) →
      l.map (fun r => if p r then f r else r) = l := by
  intro l h
  induction l with
  | nil => rfl
  | cons x xs ih =>
    have hx := h x (List.mem_cons_self x xs)
    have hxs := ih fun r hr => h r (List.mem_cons_of_mem x hr)
    simp [hx, hxs]

/-- C1. The claim asserts the poller re-scans the overlap window
`[191, 200]` when `reorg_safety_blocks = 10` and the last processed block is
200; in fact `fromBlockCalc 200 10 = 201`, not 191, so the overlap window is
never fetched again. -/
theorem fromBlock_scenario_cex :
    fromBlockCalc 200 10 = 201 ∧ (fromBlockCalc 200 10 == 191) = false := by
  constructor <;> decide

/-- C1 (amended). The fetch range of `poll_once` starts at
`from = max(last + 1, last − reorg_safety_blocks + 1) = last + 1` for every
`last` and `reorg_safety_blocks`, so no overlap window is re-scanned; in the
scenario (last processed block 200, head 213, default configuration) the next
iteration fetches `[201, 210]` and ends with checkpoint 210. -/
theorem fromBlock_always_last_succ :
    (∀ last reorgSafetyBlocks : Nat, fromBlockCalc last reorgSafetyBlocks = last + 1)
    ∧ pollOnce PollerConfig.default env1 DB.empty 200 =
        ({ DB.empty with checkpoint := some 210 }, .ok (210, 0)) := by
  constructor
  · intro last reorgSafetyBlocks
    unfold fromBlockCalc
    omega
  · rfl

/-- C9. Startup checkpoint policy of `initialize_checkpoint`: a saved
checkpoint more than `max_backfill_blocks` behind the head is rewritten to
`head − reorg_safety_blocks`; a near checkpoint is used as-is without a
write; a missing checkpoint starts at `head − reorg_safety_blocks` and is
written. -/
theorem init_checkpoint_policy :
    ∀ (cfg : PollerConfig) (h c : Nat),
      (cfg.maxBackfillBlocks < h - c →
        initCheckpoint cfg h (some c) =
          (h - cfg.reorgSafetyBlocks, some (h - cfg.reorgSafetyBlocks)))
      ∧ (h - c ≤ cfg.maxBackfillBlocks → initCheckpoint cfg h (some c) = (c, none))
      ∧ initCheckpoint cfg h none =
          (h - cfg.reorgSafetyBlocks, some (h - cfg.reorgSafetyBlocks)) := by
  intro cfg h c
  refine ⟨fun hgt => ?_, fun hle => ?_, rfl⟩
  · simp [initCheckpoint, gt_iff_lt, hgt]
  · have hno : ¬ (h - c > cfg.maxBackfillBlocks) := by omega
    simp [initCheckpoint, hno]

/-- C9 witness: checkpoint 1,000, head 2,000,000, `max_backfill_blocks = 500`,
`reorg_safety_blocks = 10` rewrites the checkpoint to 1,999,990. -/
theorem init_checkpoint_policy_witness :
    initCheckpoint PollerConfig.default 2000000 (some 1000) = (1999990, some 1999990) := by
  have h := (init_checkpoint_policy PollerConfig.default 2000000 1000).1 (by decide)
  simpa using h

/-- C3. Processing a `DstEscrowCreated` event is not a no-op on a swap row
whose destination side is already set: after source creation, destination
creation and a destination withdrawal the row has `dst_status = 'withdrawn'`,
and replaying the `DstEscrowCreated` event moves it back to `'created'`. -/
theorem dst_status_backward_cex :
    (fpRun dummyKeccak fpEvs1).fusionPlus.map (fun r => r.dstStatus) = ["withdrawn"]
    ∧ (fpRun dummyKeccak fpEvs2).fusionPlus.map (fun r => r.dstStatus) = ["created"] := by
  constructor
  · set_option maxRecDepth 8000 in decide
  · set_option maxRecDepth 8000 in decide

/-- C3 (amended). `update_fusion_plus_dst` is a no-op exactly when no row
matches `order_hash` and `dst_chain_id`; every matching row is overwritten
with `dst_status = 'created'` regardless of its current `dst_status`, so
`dst_status` can move backwards (in particular `withdrawn → created`). -/
theorem update_dst_unconditional :
    ∀ (tbl : List FusionPlusSwap) (oh : String) (d : DstEscrowCreatedData)
      (chain : Nat) (tx : String) (bn ts li : Nat) (ea : Option String),
      ((∀ r ∈ tbl, dstUpdateMatch oh chain r = false) →
        update_fusion_plus_dst tbl oh d chain tx bn ts li ea = (tbl, false))
      ∧ (∀ r ∈ tbl, dstUpdateMatch oh chain r = true →
          updateDstRow d tx bn ts li ea r ∈
            (update_fusion_plus_dst tbl oh d chain tx bn ts li ea).1
          ∧ (updateDstRow d tx bn ts li ea r).dstStatus = "created") := by
  intro tbl oh d chain tx bn ts li ea
  constructor
  · intro h
    unfold update_fusion_plus_dst
    rw [map_ite_eq_self _ _ tbl h]
    simp only [Prod.mk.injEq, true_and]
    simp only [List.any_eq_false]
    intro r hr
    simp [h r hr]
  · intro r hr hmatch
    refine ⟨?_, rfl⟩
    unfold update_fusion_plus_dst
    have : updateDstRow d tx bn ts li ea r =
        (fun r => if dstUpdateMatch oh chain r then
          updateDstRow d tx bn ts li ea r else r) r := by
      simp [hmatch]
    rw [this]
    exact List.mem_map_of_mem _ hr

/-- C3 witness: a matching row with `dst_status = 'created'` is rewritten. -/
theorem update_dst_unconditional_witness :
    updateDstRow d0 "0xtx" 1 2 3 none c4Row ∈
      (update_fusion_plus_dst [c4Row] "0xoh" d0 5 "0xtx" 1 2 3 none).1
    ∧ (updateDstRow d0 "0xtx" 1 2 3 none c4Row).dstStatus = "created" :=
  (update_dst_unconditional [c4Row] "0xoh" d0 5 "0xtx" 1 2 3 none).2 c4Row
    (List.mem_cons_self _ _) (by decide)

/-- C4. The destination-side withdrawal update does not leave an
already-populated destination untouched: on a row with
`dst_tx_hash = some "0xold"` the update overwrites the coordinate with the
withdrawal transaction's hash. -/
theorem withdrawal_dst_overwrite_cex :
    (update_fusion_plus_withdrawal_by_hashlock [c4Row] "0xhl" 5 false "0xsec"
        "0xNEW" 9 9 2).1.map (fun r => r.dstTxHash) = [some "0xnew"]
    ∧ c4Row.dstTxHash = some "0xold" := by
  constructor <;> decide

/-- C4 (amended). With `is_src = false`,
`update_fusion_plus_withdrawal_by_hashlock` overwrites the destination tx
coordinates (`dst_tx_hash`, `dst_block_number`, `dst_block_timestamp`,
`dst_log_index`) of every row matching the hashlock and destination chain,
whether or not the destination side was previously populated. -/
theorem withdrawal_dst_overwrites_coords :
    ∀ (tbl : List FusionPlusSwap) (hl : String) (chain : Nat)
      (secret tx : String) (bn ts li : Nat),
      ∀ r ∈ tbl, withdrawMatch hl chain false r = true →
        withdrawDstRow secret tx bn ts li r ∈
          (update_fusion_plus_withdrawal_by_hashlock tbl hl chain false secret
            tx bn ts li).1
        ∧ (withdrawDstRow secret tx bn ts li r).dstTxHash = some (strLower tx)
        ∧ (withdrawDstRow secret tx bn ts li r).dstBlockNumber = some bn
        ∧ (withdrawDstRow secret tx bn ts li r).dstBlockTimestamp = some ts
        ∧ (withdrawDstRow secret tx bn ts li r).dstLogIndex = some li := by
  intro tbl hl chain secret tx bn ts li r hr hmatch
  refine ⟨?_, rfl, rfl, rfl, rfl⟩
  unfold update_fusion_plus_withdrawal_by_hashlock
  have : withdrawDstRow secret tx bn ts li r =
      (fun r => if withdrawMatch hl chain false r then
        (if false then withdrawSrcRow secret r
         else withdrawDstRow secret tx bn ts li r) else r) r := by
    simp [hmatch]
  rw [this]
  exact List.mem_map_of_mem _ hr

/-- C4 witness: the overwrite applied to a populated destination row. -/
theorem withdrawal_dst_overwrites_coords_witness :
    withdrawDstRow "0xsec" "0xNEW" 9 9 2 c4Row ∈
      (update_fusion_plus_withdrawal_by_hashlock [c4Row] "0xhl" 5 false "0xsec"
        "0xNEW" 9 9 2).1
    ∧ (withdrawDstRow "0xsec" "0xNEW" 9 9 2 c4Row).dstTxHash = some (strLower "0xNEW")
    ∧ (withdrawDstRow "0xsec" "0xNEW" 9 9 2 c4Row).dstBlockNumber = some 9
    ∧ (withdrawDstRow "0xsec" "0xNEW" 9 9 2 c4Row).dstBlockTimestamp = some 9
    ∧ (withdrawDstRow "0xsec" "0xNEW" 9 9 2 c4Row).dstLogIndex = some 2 :=
  withdrawal_dst_overwrites_coords [c4Row] "0xhl" 5 "0xsec" "0xNEW" 9 9 2 c4Row
    (List.mem_cons_self _ _) (by decide)

/-- C8. Transfer ingestion is idempotent: a batch whose `(tx_hash, log_index)`
keys are all already present inserts zero rows and leaves the table unchanged;
and feeding the poller the same log response for blocks `[100, 110]` twice
leaves the store exactly as after the first pass, with checkpoint 110. -/
theorem transfer_ingestion_idempotent :
    (∀ (table : List TransferRow) (batch : List Transfer),
      (∀ t ∈ batch, ∃ r ∈ table, r.txHash = t.txHash ∧ r.logIndex = t.logIndex) →
      insert_transfers_batch table batch = (table, 0))
    ∧ pollStep PollerConfig.default env8 (pollStep PollerConfig.default env8 (DB.empty, 99)) =
        pollStep PollerConfig.default env8 (DB.empty, 99)
    ∧ (pollStep PollerConfig.default env8 (DB.empty, 99)).1.checkpoint = some 110
    ∧ (pollStep PollerConfig.default env8 (DB.empty, 99)).1.transfers.length = 2
    ∧ (pollStep PollerConfig.default env8 (DB.empty, 99)).2 = 110 := by
  refine ⟨?_, ?_, rfl, rfl, rfl⟩
  · intro table batch h
    induction batch with
    | nil => rfl
    | cons t rest ih =>
      obtain ⟨r, hr, h1, h2⟩ := h t (List.mem_cons_self t rest)
      have hany : table.any
          (fun r => r.txHash == t.txHash && r.logIndex == t.logIndex) = true := by
        rw [List.any_eq_true]
        exact ⟨r, hr, by simp [h1, h2]⟩
      have hrow : insertTransferRow table t = (table, false) := by
        unfold insertTransferRow
        rw [if_pos hany]
      have hrest := ih fun t' ht' => h t' (List.mem_cons_of_mem t ht')
      simp [insert_transfers_batch, hrow, hrest]
  · rfl

/-- C8 witness: re-inserting a transfer whose key is already stored is a
no-op. -/
theorem transfer_ingestion_idempotent_witness :
    insert_transfers_batch [w8Row] [w8Dup] = ([w8Row], 0) :=
  transfer_ingestion_idempotent.1 [w8Row] [w8Dup] (by decide)

/-- C2. Fetching a class of logs can fail without the iteration being
abandoned: with the Fusion+ factory-log fetch failing for the whole window
`[100, 110]` and nothing else failing, `poll_once` still completes and the
checkpoint advances to 110; the factory events of that window are lost. -/
theorem checkpoint_advance_on_fetch_failure_cex :
    env2.factoryLogs 100 110 = .error "factory fetch failed"
    ∧ pollOnce PollerConfig.default env2 DB.empty 99 =
        ({ DB.empty with checkpoint := some 110 }, .ok (110, 0)) :=
  ⟨rfl, rfl⟩

/-- C2 (amended). A failed transfer-log fetch abandons the iteration with the
store (and hence the checkpoint) unchanged; but failed fetches of the Fusion+
factory logs, escrow logs and router logs are swallowed
(`unwrap_or_default`), the affected events are treated as absent, and the
checkpoint still advances to `window_to`. -/
theorem poll_once_error_scope :
    ∀ (cfg : PollerConfig) (env : Env) (db : DB) (last h : Nat) (e ef ee er : String),
      env.blockNumber = .ok h →
      ¬ fromBlockCalc last cfg.reorgSafetyBlocks > h - cfg.confirmationBlocks →
      ((env.transferLogs (fromBlockCalc last cfg.reorgSafetyBlocks)
          (windowTo cfg last h) = .error e →
        pollOnce cfg env db last = (db, .error e))
       ∧ (env.transferLogs (fromBlockCalc last cfg.reorgSafetyBlocks)
            (windowTo cfg last h) = .ok [] →
          env.factoryLogs (fromBlockCalc last cfg.reorgSafetyBlocks)
            (windowTo cfg last h) = .error ef →
          env.escrowLogs (fromBlockCalc last cfg.reorgSafetyBlocks)
            (windowTo cfg last h) = .error ee →
          env.routerLogs (fromBlockCalc last cfg.reorgSafetyBlocks)
            (windowTo cfg last h) = .error er →
          pollOnce cfg env db last =
            ({ db with checkpoint := some (windowTo cfg last h) },
             .ok (windowTo cfg last h, 0)))) := by
  intro cfg env db last h e ef ee er hbn hle
  constructor
  · intro htl
    simp only [pollOnce, hbn, windowTo] at htl ⊢
    rw [if_neg hle, htl]
  · intro htl hf hesc hr
    simp only [pollOnce, hbn, windowTo] at htl hf hesc hr ⊢
    rw [if_neg hle, htl]
    simp [buildTransfers, insert_transfers_batch, pollFusionPlusEvents,
      pollFusionEvents, runFactoryLogs, runEscrowLogs, runRouterLogs,
      hf, hesc, hr]

/-- C2 witness: a failing transfer fetch leaves the checkpoint alone, while
failing Fusion-side fetches still let it advance to 110. -/
theorem poll_once_error_scope_witness :
    pollOnce PollerConfig.default env2a DB.empty 99 =
      (DB.empty, .error "transfer fetch failed")
    ∧ pollOnce PollerConfig.default env2b DB.empty 99 =
        ({ DB.empty with checkpoint := some 110 }, .ok (110, 0)) :=
  ⟨(poll_once_error_scope PollerConfig.default env2a DB.empty 99 113
      "transfer fetch failed" "x" "x" "x" rfl (by decide)).1 rfl,
   (poll_once_error_scope PollerConfig.default env2b DB.empty 99 113
      "e" "factory fetch failed" "escrow fetch failed" "router fetch failed"
      rfl (by decide)).2 rfl rfl rfl rfl⟩

/-- Unfolding step of the retry loop on a retryable attempt with retry
budget left: sleep `base · 2^retries` and continue with the next attempt. -/
theorem requestLoop_retry_step (base maxR : Nat) (att : Nat → Attempt)
    (fuel idx retries : Nat) (h : retryableAttempt (att idx) = true)
    (hr : retries + 1 ≤ maxR) :
    requestLoop base maxR att (fuel + 1) idx retries =
      ((requestLoop base maxR att fuel (idx + 1) (retries + 1)).1,
        base * 2 ^ retries :: (requestLoop base maxR att fuel (idx + 1) (retries + 1)).2) := by
  have hnot : ¬ (retries + 1 > maxR) := by omega
  by_cases hs : is_retryable_status (att idx).status
  · simp [requestLoop, hs, hnot]
  · unfold retryableAttempt at h
    rw [Bool.or_eq_true] at h
    rcases h with h | h
    · exact absurd h (by simpa using hs)
    · rw [Bool.and_eq_true] at h
      obtain ⟨hsucc, hbody⟩ := h
      cases hb : (att idx).body with
      | err code message =>
        rw [hb] at hbody
        have hrate : isRateLimitBody code message = true := hbody
        simp [requestLoop, hs, hsucc, hb, hrate, hnot]
      | missing => rw [hb] at hbody; simp at hbody
      | result v => rw [hb] at hbody; simp at hbody

/-- Unfolding step of the retry loop on a retryable attempt with the budget
exhausted: fail with `RateLimited` without sleeping. -/
theorem requestLoop_stop_step (base maxR : Nat) (att : Nat → Attempt)
    (fuel idx retries : Nat) (h : retryableAttempt (att idx) = true)
    (hr : retries = maxR) :
    requestLoop base maxR att (fuel + 1) idx retries = (.rateLimited, []) := by
  have hgt : retries + 1 > maxR := by omega
  by_cases hs : is_retryable_status (att idx).status
  · simp [requestLoop, hs, hgt]
  · unfold retryableAttempt at h
    rw [Bool.or_eq_true] at h
    rcases h with h | h
    · exact absurd h (by simpa using hs)
    · rw [Bool.and_eq_true] at h
      obtain ⟨hsucc, hbody⟩ := h
      cases hb : (att idx).body with
      | err code message =>
        rw [hb] at hbody
        have hrate : isRateLimitBody code message = true := hbody
        simp [requestLoop, hs, hsucc, hb, hrate, hgt]
      | missing => rw [hb] at hbody; simp at hbody
      | result v => rw [hb] at hbody; simp at hbody

/-- Unfolding step of the retry loop on a non-retryable attempt: the call
settles immediately with no further sleep. -/
theorem requestLoop_settle_step (base maxR : Nat) (att : Nat → Attempt)
    (fuel idx retries : Nat) (h : retryableAttempt (att idx) = false) :
    requestLoop base maxR att (fuel + 1) idx retries = (settleAttempt (att idx), []) := by
  unfold retryableAttempt at h
  rw [Bool.or_eq_false_iff] at h
  obtain ⟨hs, hrest⟩ := h
  by_cases hsucc : isSuccessStatus (att idx).status
  · cases hb : (att idx).body with
    | err code message =>
      rw [hb] at hrest
      rw [hsucc] at hrest
      simp only [Bool.true_and] at hrest
      simp [requestLoop, settleAttempt, hs, hsucc, hb, hrest]
    | missing => simp [requestLoop, settleAttempt, hs, hsucc, hb]
    | result v => simp [requestLoop, settleAttempt, hs, hsucc, hb]
  · have hsucc' : isSuccessStatus (att idx).status = false := by
      simpa using hsucc
    simp [requestLoop, settleAttempt, hs, hsucc']

/-- A run of `retries + k = maxR` pending retries in which every attempt is
retryable exhausts the budget: `RateLimited` after backoffs
`base · 2^retries, …, base · 2^(maxR − 1)`. -/
theorem requestLoop_all_retryable (base maxR : Nat) (att : Nat → Attempt) :
    ∀ (k idx retries : Nat), retries + k = maxR →
      (∀ i, i ≤ k → retryableAttempt (att (idx + i)) = true) →
      requestLoop base maxR att (maxR + 1 - retries) idx retries =
        (.rateLimited, (List.range k).map fun n => base * 2 ^ (retries + n)) := by
  intro k
  induction k with
  | zero =>
    intro idx retries hsum hall
    have h0 := hall 0 (Nat.le_refl 0)
    rw [Nat.add_zero] at h0 hsum
    have hfuel : maxR + 1 - retries = 0 + 1 := by omega
    rw [hfuel, requestLoop_stop_step base maxR att 0 idx retries h0 hsum]
    simp
  | succ k ih =>
    intro idx retries hsum hall
    have h0 := hall 0 (Nat.zero_le _)
    rw [Nat.add_zero] at h0
    have hr : retries + 1 ≤ maxR := by omega
    have hfuel : maxR + 1 - retries = (maxR + 1 - (retries + 1)) + 1 := by omega
    rw [hfuel, requestLoop_retry_step base maxR att _ idx retries h0 hr]
    rw [ih (idx + 1) (retries + 1) (by omega)
      (fun i hi => by
        have := hall (i + 1) (by omega)
        have harg : idx + 1 + i = idx + (i + 1) := by omega
        rwa [harg])]
    rw [List.range_succ_eq_map, List.map_cons, List.map_map]
    have harg : ∀ n, retries + 1 + n = retries + (n + 1) := by omega
    simp [Function.comp, harg]

/-- A run of `k ≤ maxR − retries` retryable attempts followed by a
non-retryable one settles on that attempt after backoffs
`base · 2^retries, …, base · 2^(retries + k − 1)`. -/
theorem requestLoop_settles (base maxR : Nat) (att : Nat → Attempt) :
    ∀ (k idx retries : Nat), retries + k ≤ maxR →
      (∀ i, i < k → retryableAttempt (att (idx + i)) = true) →
      retryableAttempt (att (idx + k)) = false →
      requestLoop base maxR att (maxR + 1 - retries) idx retries =
        (settleAttempt (att (idx + k)),
          (List.range k).map fun n => base * 2 ^ (retries + n)) := by
  intro k
  induction k with
  | zero =>
    intro idx retries hsum hall hstop
    rw [Nat.add_zero] at hstop
    have hfuel : maxR + 1 - retries = (maxR - retries) + 1 := by omega
    rw [hfuel, requestLoop_settle_step base maxR att _ idx retries hstop]
    simp
  | succ k ih =>
    intro idx retries hsum hall hstop
    have h0 := hall 0 (Nat.zero_lt_succ k)
    rw [Nat.add_zero] at h0
    have hr : retries + 1 ≤ maxR := by omega
    have hfuel : maxR + 1 - retries = (maxR + 1 - (retries + 1)) + 1 := by omega
    have hstop' : retryableAttempt (att (idx + 1 + k)) = false := by
      have harg : idx + 1 + k = idx + (k + 1) := by omega
      rwa [harg]
    rw [hfuel, requestLoop_retry_step base maxR att _ idx retries h0 hr]
    rw [ih (idx + 1) (retries + 1) (by omega)
      (fun i hi => by
        have := hall (i + 1) (by omega)
        have harg : idx + 1 + i = idx + (i + 1) := by omega
        rwa [harg]) hstop']
    rw [List.range_succ_eq_map, List.map_cons, List.map_map]
    have harg : ∀ n, retries + 1 + n = retries + (n + 1) := by omega
    have harg2 : idx + 1 + k = idx + (k + 1) := by omega
    simp [Function.comp, harg, harg2]

/-- C5. `RpcClient::request` retries exactly on retryable attempt outcomes
(HTTP status in {429, 502, 503, 504}, or a JSON-RPC error with code −32005 or
a message containing "rate" case-insensitively), sleeping `base · 2^(n−1)`
before the n-th retry; if every attempt up to the budget is retryable it
fails with `RateLimited` after `maxRetries` retries, and the first
non-retryable outcome settles the call immediately (typed error or success)
with no further retry. -/
theorem rpc_retry_policy :
    ∀ (base maxRetries : Nat) (att : Nat → Attempt) (k : Nat),
      ((∀ i, i ≤ maxRetries → retryableAttempt (att i) = true) →
        request base maxRetries att =
          (.rateLimited, (List.range maxRetries).map fun n => base * 2 ^ n))
      ∧ ((∀ i, i < k → retryableAttempt (att i) = true) → k ≤ maxRetries →
          retryableAttempt (att k) = false →
          request base maxRetries att =
            (settleAttempt (att k), (List.range k).map fun n => base * 2 ^ n)) := by
  intro base maxR att k
  constructor
  · intro hall
    have h := requestLoop_all_retryable base maxR att maxR 0 0 (by omega)
      (fun i hi => by simpa using hall i hi)
    simpa [request] using h
  · intro hall hk hstop
    have h := requestLoop_settles base maxR att k 0 0 (by omega)
      (fun i hi => by simpa using hall i hi) (by simpa using hstop)
    simpa [request] using h

/-- C5 witness: two HTTP 429 responses then a success — the call succeeds
after backoffs of 100 ms and 200 ms. -/
theorem rpc_retry_policy_witness :
    request 100 3 attStream1 = (.ok 7, [100, 200]) := by
  have h := (rpc_retry_policy 100 3 attStream1 2).2 (by decide) (by decide) (by decide)
  exact h.trans (by decide)

/-- A list of hex digits has no leading `0x` to trim. -/
theorem trim0xList_eq_self_of_hex (l : List Char)
    (h : ∀ c ∈ l, (hexDigitVal c).isSome) : trim0xList l = l := by
  rw [trim0xList.eq_def]
  split
  · rename_i rest
    have hx := h 'x' (by simp)
    simp [hexDigitVal] at hx
  · rfl

/-- C10. For every OrderFilled / OrderCancelled log that decodes (and whose
remaining-amount word consists of hex digits, as `eth_getLogs` data does),
the stored FusionSwap row has `is_partial_fill = true` exactly when the
`0x`-stripped remaining word contains a hex digit other than `'0'`, i.e. when
the remaining amount is nonzero. -/
theorem order_filled_remaining_flag :
    ∀ (chainId : Nat) (log : Log) (ts : Nat) (status : String) (db : DB)
      (d : OrderFilledData),
      decode_order_filled log.topics log.data = some d →
      (∀ c ∈ (strip0x d.remaining).data, (hexDigitVal c).isSome) →
      ∀ r ∈ (processOrderFilled chainId log ts status db).1.fusionSwaps,
        r ∉ db.fusionSwaps →
        (r.isPartialFill = true ↔
          ∃ c ∈ (strip0x d.remaining).data, (hexDigitVal c).isSome ∧ c ≠ '0') := by
  intro chainId log ts status db d hdec hhex r hr hnot
  have hd := hdec
  simp only [decode_order_filled] at hd
  by_cases ht : log.topics.isEmpty
  · rw [if_pos ht] at hd
    exact absurd hd (by simp)
  · rw [if_neg ht] at hd
    by_cases hlen : (strip0x log.data).data.length < 128
    · rw [if_pos hlen] at hd
      exact absurd hd (by simp)
    · rw [if_neg hlen] at hd
      have hd' := Option.some.inj hd
      have hrem : d.remaining =
          ⟨'0' :: 'x' :: (getWord (strip0x log.data).data 1).map charLower⟩ := by
        rw [← hd']
      have hstrip : (strip0x d.remaining).data =
          (getWord (strip0x log.data).data 1).map charLower := by
        rw [hrem]
        rfl
      have htrim : (trim0x d.remaining).data =
          (getWord (strip0x log.data).data 1).map charLower := by
        rw [hrem]
        show trim0xList ('0' :: 'x' :: (getWord (strip0x log.data).data 1).map charLower) = _
        rw [show trim0xList ('0' :: 'x' :: (getWord (strip0x log.data).data 1).map charLower)
            = trim0xList ((getWord (strip0x log.data).data 1).map charLower) from rfl]
        exact trim0xList_eq_self_of_hex _ (by rw [← hstrip]; exact hhex)
      simp only [processOrderFilled, hdec] at hr
      have hins := hr
      unfold insert_fusion_swap at hins
      by_cases hdup : db.fusionSwaps.any fun r' =>
          r'.chainId == chainId && r'.txHash == strLower log.transactionHash &&
            r'.logIndex == log.logIndexU32
      · rw [if_pos hdup] at hins
        exact absurd hins hnot
      · rw [if_neg hdup] at hins
        rcases List.mem_append.mp hins with hold | hnew
        · exact absurd hold hnot
        · have hreq := List.mem_singleton.mp hnew
          have hflag : r.isPartialFill =
              ! (trim0x d.remaining).data.all (fun c => c == '0') := by
            rw [hreq]
          rw [hflag, htrim, ← hstrip]
          constructor
          · intro hall
            rw [Bool.not_eq_eq_eq_not] at hall
            simp only [Bool.not_true] at hall
            rw [List.all_eq_false] at hall
            obtain ⟨c, hc, hcne⟩ := hall
            exact ⟨c, hc, hhex c hc, by simpa using hcne⟩
          · intro hex
            obtain ⟨c, hc, _, hcne⟩ := hex
            rw [Bool.not_eq_eq_eq_not]
            simp only [Bool.not_true]
            rw [List.all_eq_false]
            exact ⟨c, hc, by simpa using hcne⟩

/-- C10 witness: the row stored for `ofLog1` has `is_partial_fill = true`,
matching its nonzero remaining word. -/
theorem order_filled_remaining_flag_witness :
    r10.isPartialFill = true ↔
      ∃ c ∈ (strip0x d10.remaining).data, (hexDigitVal c).isSome ∧ c ≠ '0' :=
  order_filled_remaining_flag 1 ofLog1 5 "filled" DB.empty d10
    (by set_option maxRecDepth 4000 in decide)
    (by set_option maxRecDepth 4000 in decide)
    r10
    (by set_option maxRecDepth 4000 in decide)
    (by decide)

/-- Packing a valid scalar value round-trips through `Char.ofNat`. -/
theorem char_toNat_ofNat (n : Nat) (h : n.isValidChar) : (Char.ofNat n).toNat = n := by
  rw [Char.ofNat, dif_pos h]
  rfl

/-- ASCII lowercasing is idempotent. -/
theorem charLower_idem (c : Char) : charLower (charLower c) = charLower c := by
  unfold charLower Char.toLower
  by_cases h : c.toNat ≥ 65 ∧ c.toNat ≤ 90
  · rw [if_pos h]
    have hvalid : (c.toNat + 32).isValidChar := Or.inl (by omega)
    have htn : (Char.ofNat (c.toNat + 32)).toNat = c.toNat + 32 := char_toNat_ofNat _ hvalid
    rw [htn, if_neg (by omega)]
  · rw [if_neg h, if_neg h]

/-- The digit `'0'` is lowercase-fixed. -/
theorem charLower_digit0 : charLower '0' = '0' := by decide

/-- The letter `'x'` is lowercase-fixed. -/
theorem charLower_letterx : charLower 'x' = 'x' := by decide

/-- Every digit `hex::encode` emits is lowercase-fixed. -/
theorem charLower_hexChar (n : Nat) : charLower (hexChar n) = hexChar n := by
  rw [hexChar.eq_def]
  split <;> decide

/-- Lowercasing a `0x`-prefixed already-lowercased hex string is the
identity. -/
theorem strLower_0x_map (l : List Char) :
    strLower ⟨'0' :: 'x' :: l.map charLower⟩ = ⟨'0' :: 'x' :: l.map charLower⟩ := by
  have hmap : List.map charLower (List.map charLower l) = List.map charLower l := by
    rw [List.map_map]
    exact List.map_congr_left fun a _ => charLower_idem a
  simp [strLower, charLower_digit0, charLower_letterx, hmap]

/-- The output of `hex::encode` is lowercase-fixed. -/
theorem hexEncode_lower_fixed (bs : List Nat) :
    (hexEncodeBytes bs).map charLower = hexEncodeBytes bs := by
  induction bs with
  | nil => rfl
  | cons b rest ih => simp [hexEncodeBytes, charLower_hexChar, ih]

/-- Lowercasing a computed hashlock is the identity. -/
theorem strLower_0x_hexEncode (bs : List Nat) :
    strLower ⟨'0' :: 'x' :: hexEncodeBytes bs⟩ = ⟨'0' :: 'x' :: hexEncodeBytes bs⟩ := by
  simp [strLower, charLower_digit0, charLower_letterx, hexEncode_lower_fixed]

/-- Shape of a decoded withdrawal secret: `0x` plus a lowercased word. -/
theorem decode_withdrawal_shape (data secret : String)
    (h : decode_escrow_withdrawal data = some secret) :
    secret = ⟨'0' :: 'x' :: (sliceChars (strip0x data).data 0 64).map charLower⟩ := by
  simp only [decode_escrow_withdrawal] at h
  by_cases hl : (strip0x data).data.length < 64
  · rw [if_pos hl] at h
    exact absurd h (by simp)
  · rw [if_neg hl] at h
    exact (Option.some.inj h).symm

/-- Shape of a computed hashlock: `0x` plus the hex-encoded keccak output. -/
theorem compute_hashlock_shape (keccak : List Nat → List Nat) (secret hashlock : String)
    (h : compute_hashlock_from_secret keccak secret = some hashlock) :
    ∃ bs, hashlock = ⟨'0' :: 'x' :: hexEncodeBytes (keccak bs)⟩ := by
  unfold compute_hashlock_from_secret at h
  cases hd : hexDecodeBytes (strip0x secret).data with
  | none => rw [hd] at h; exact absurd h (by simp)
  | some bs => rw [hd] at h; exact ⟨bs, (Option.some.inj h).symm⟩

/-- One processed Fusion+ event preserves the secret / hashlock invariant. -/
theorem secretInvariant_fpStep (keccak : List Nat → List Nat) (db : DB) (e : FpEvent)
    (hinv : secretInvariant keccak db) : secretInvariant keccak (fpStep keccak db e) := by
  cases e with
  | srcCreated chainId log ts =>
    intro r hr s hs
    cases hd : decode_src_escrow_created log.data with
    | none =>
      simp only [fpStep, processSrcEscrowCreated, hd] at hr
      exact hinv r hr s hs
    | some d =>
      simp only [fpStep, processSrcEscrowCreated, hd] at hr
      unfold insert_fusion_plus_swap at hr
      by_cases hdup : db.fusionPlus.any fun r' =>
          r'.orderHash == strLower (FusionPlusSwap.fromSrcCreated d chainId
            log.transactionHash log.blockNumberU64 ts log.logIndexU32).orderHash
      · rw [if_pos hdup] at hr
        exact hinv r hr s hs
      · rw [if_neg hdup] at hr
        rcases List.mem_append.mp hr with hold | hnew
        · exact hinv r hold s hs
        · have hreq := List.mem_singleton.mp hnew
          rw [hreq] at hs
          simp [FusionPlusSwap.fromSrcCreated] at hs
  | dstCreated chainId log ts =>
    intro r hr s hs
    cases hd : decode_dst_escrow_created log.data with
    | none =>
      simp only [fpStep, processDstEscrowCreated, hd] at hr
      exact hinv r hr s hs
    | some d =>
      simp only [fpStep, processDstEscrowCreated, hd] at hr
      unfold update_fusion_plus_dst at hr
      obtain ⟨r0, hr0, hre⟩ := List.mem_map.mp hr
      cases hm : dstUpdateMatch d.orderHash chainId r0 with
      | false =>
        simp only [hm, Bool.false_eq_true, if_false] at hre
        rw [← hre] at hs ⊢
        exact hinv r0 hr0 s hs
      | true =>
        simp only [hm, if_true] at hre
        rw [← hre] at hs ⊢
        have h1 : (updateDstRow d log.transactionHash log.blockNumberU64 ts
            log.logIndexU32 (some log.address) r0).secret = r0.secret := rfl
        have h2 : (updateDstRow d log.transactionHash log.blockNumberU64 ts
            log.logIndexU32 (some log.address) r0).hashlock = r0.hashlock := rfl
        rw [h1] at hs
        rw [h2]
        exact hinv r0 hr0 s hs
  | withdrawal chainId log ts =>
    intro r hr s hs
    cases hd : decode_escrow_withdrawal log.data with
    | none =>
      simp only [fpStep, processEscrowWithdrawal, hd] at hr
      exact hinv r hr s hs
    | some secret =>
      cases hc : compute_hashlock_from_secret keccak secret with
      | none =>
        simp only [fpStep, processEscrowWithdrawal, hd, hc] at hr
        exact hinv r hr s hs
      | some hashlock =>
        cases hg : get_fusion_plus_swap_by_hashlock db.fusionPlus hashlock with
        | none =>
          simp only [fpStep, processEscrowWithdrawal, hd, hc, hg] at hr
          exact hinv r hr s hs
        | some swap =>
          simp only [fpStep, processEscrowWithdrawal, hd, hc, hg] at hr
          have hsl : strLower secret = secret := by
            rw [decode_withdrawal_shape log.data secret hd]
            exact strLower_0x_map _
          obtain ⟨bs, hhl⟩ := compute_hashlock_shape keccak secret hashlock hc
          have hhll : strLower hashlock = hashlock := by
            rw [hhl]
            exact strLower_0x_hexEncode _
          unfold update_fusion_plus_withdrawal_by_hashlock at hr
          obtain ⟨r0, hr0, hre⟩ := List.mem_map.mp hr
          cases hm : withdrawMatch hashlock chainId (swap.srcChainId == chainId) r0 with
          | false =>
            simp only [hm, Bool.false_eq_true, if_false] at hre
            rw [← hre] at hs ⊢
            exact hinv r0 hr0 s hs
          | true =>
            simp only [hm, if_true] at hre
            have hh : r0.hashlock = strLower hashlock := by
              unfold withdrawMatch at hm
              rw [Bool.and_eq_true] at hm
              exact eq_of_beq hm.1
            have hkey : r.secret = some (strLower secret) ∧ r.hashlock = r0.hashlock := by
              cases hsrc : (swap.srcChainId == chainId) with
              | true =>
                rw [hsrc] at hre
                simp only [if_true] at hre
                rw [← hre]
                exact ⟨rfl, rfl⟩
              | false =>
                rw [hsrc] at hre
                simp only [Bool.false_eq_true, if_false] at hre
                rw [← hre]
                exact ⟨rfl, rfl⟩
            obtain ⟨hsec, hhash⟩ := hkey
            rw [hsec] at hs
            have hseq := Option.some.inj hs
            rw [← hseq, hsl, hc, hhash, hh, hhll]
  | cancelled chainId log ts =>
    intro r hr s hs
    simp only [fpStep, processEscrowCancelled] at hr
    exact hinv r hr s hs

/-- C7. Store invariant over every sequence of processed Fusion+ events: a
swap row with a non-null secret has `hashlock = keccak256(hex_decode(secret))`
(the secret is only ever written by the withdrawal path, which derives the
hashlock from the secret and matches rows by that hashlock). -/
theorem fusion_plus_secret_matches_hashlock :
    ∀ (keccak : List Nat → List Nat) (events : List FpEvent),
      ∀ r ∈ (fpRun keccak events).fusionPlus, ∀ s, r.secret = some s →
        compute_hashlock_from_secret keccak s = some r.hashlock := by
  intro keccak events
  have hall : ∀ (evs : List FpEvent) (db : DB), secretInvariant keccak db →
      secretInvariant keccak (evs.foldl (fpStep keccak) db) := by
    intro evs
    induction evs with
    | nil => intro db h; exact h
    | cons e rest ih =>
      intro db h
      exact ih _ (secretInvariant_fpStep keccak db e h)
  have hempty : secretInvariant keccak DB.empty := by
    intro r hr
    simp [DB.empty] at hr
  exact hall events DB.empty hempty

/-- C7 witness: after a source creation and the revealing withdrawal the
stored secret hashes back to the stored hashlock. -/
theorem fusion_plus_secret_matches_hashlock_witness :
    compute_hashlock_from_secret dummyKeccak word0 = some r7.hashlock :=
  fusion_plus_secret_matches_hashlock dummyKeccak fpEvs7 r7
    (by set_option maxRecDepth 8000 in decide) word0 (by decide)

end EvmListener
